import Mathlib

/-!
Shallow embedding of the heat-diffusion simulation in `src/pde.ts`.

JS `number` values carried by the grid and the pixel buffer are modelled as
rationals (`ℚ`); grid and buffer are lists, mutation becomes `List.set`.
The radial initializer uses the real exponential, so grids produced by
`initializeHeatGrid` carry real values (`ℝ`).
-/

namespace Heat

/-! ## Definitions -/

/-- A heat grid: a list of rows of temperature values. -/
abbrev Grid := List (List ℚ)

/-- Read cell `(i, j)`; out-of-bounds reads default to `0` (this default is
only a modelling device: the embedded loops below never rely on it where the
source would crash). -/
def getCell (g : Grid) (i j : ℕ) : ℚ := (g.getD i []).getD j 0

/-- Write value `v` into cell `(i, j)` (the embedding of `heatGrid[i][j] = v`). -/
def setCell (g : Grid) (i j : ℕ) (v : ℚ) : Grid :=
  g.set i ((g.getD i []).set j v)

/-- `Rect g rows cols`: `g` is a rectangular `rows × cols` grid. -/
def Rect (g : Grid) (rows cols : ℕ) : Prop :=
  g.length = rows ∧ ∀ r ∈ g, r.length = cols

instance (g : Grid) (rows cols : ℕ) : Decidable (Rect g rows cols) := by
  unfold Rect; infer_instance

/-- The all-zero `rows × cols` grid. -/
def zeroGrid (rows cols : ℕ) : Grid :=
  List.replicate rows (List.replicate cols 0)

/-- Body of the double loop of `heatDissipationTimeStep` (src/pde.ts lines
44–52): recompute cell `(i, j)` from the current (partially updated) grid. -/
def updateCell (gamma : ℚ) (rows cols : ℕ) (g : Grid) (i j : ℕ) : Grid :=
  let a := if 1 ≤ i then getCell g (i-1) j else 0
  let b := if i + 1 < rows then getCell g (i+1) j else 0
  let c := if 1 ≤ j then getCell g i (j-1) else 0
  let d := if j + 1 < cols then getCell g i (j+1) else 0
  let e := getCell g i j
  let temp := gamma * (a + b + c + d + 4*e) - e
  setCell g i j (if 0 ≤ temp then temp else 0)

/-- One diffusion step (`heatDissipationTimeStep`, src/pde.ts lines 34–55):
the source mutates the grid in place inside a row-major double loop; the
embedding threads the grid through nested `foldl`s over the same index
ranges, one `updateCell` per loop body execution. -/
def heatDissipationTimeStep (heatGrid : Grid) (gamma : ℚ) : Grid :=
  let rows := heatGrid.length
  let cols := (heatGrid.getD 0 []).length
  (List.range rows).foldl
    (fun g i => (List.range cols).foldl (fun g' j => updateCell gamma rows cols g' i j) g)
    heatGrid

/-- The value the in-place row-major pass finally leaves at cell `(i, j)`:
the up and left neighbor reads see values already updated in this pass, while
the down, right and center reads see pre-step values. -/
def newVal (gamma : ℚ) (g : Grid) (rows cols : ℕ) (i j : ℕ) : ℚ :=
  let a := if _ : 1 ≤ i then newVal gamma g rows cols (i-1) j else 0
  let b := if i + 1 < rows then getCell g (i+1) j else 0
  let c := if _ : 1 ≤ j then newVal gamma g rows cols i (j-1) else 0
  let d := if j + 1 < cols then getCell g i (j+1) else 0
  let e := getCell g i j
  let temp := gamma * (a + b + c + d + 4*e) - e
  if 0 ≤ temp then temp else 0
termination_by (i, j)
decreasing_by
  · exact Prod.Lex.left _ _ (by omega)
  · exact Prod.Lex.right _ (by omega)

/-- State of the in-place pass after the inner loop of row `i` has run `n`
iterations. -/
def stepRowPrefix (gamma : ℚ) (rows cols : ℕ) (g : Grid) (i n : ℕ) : Grid :=
  (List.range n).foldl (fun g' j => updateCell gamma rows cols g' i j) g

/-- State of the in-place pass after the outer loop has run `m` iterations. -/
def stepPrefix (gamma : ℚ) (rows cols : ℕ) (g : Grid) (m : ℕ) : Grid :=
  (List.range m).foldl (fun g' i => stepRowPrefix gamma rows cols g' i cols) g

/-- Invariant of the in-place pass at loop position `(i, j)`: cells strictly
before `(i, j)` in row-major order hold their final values, cells at or after
`(i, j)` still hold pre-step values. -/
def StepInv (gamma : ℚ) (g : Grid) (rows cols : ℕ) (G : Grid) (i j : ℕ) : Prop :=
  Rect G rows cols ∧
  (∀ i' j', i' < rows → j' < cols → (i' < i ∨ (i' = i ∧ j' < j)) →
    getCell G i' j' = newVal gamma g rows cols i' j') ∧
  (∀ i' j', (i < i' ∨ (i = i' ∧ j ≤ j')) → getCell G i' j' = getCell g i' j')

/-- Modelled from the spec's wording of claim C1, for comparison with the
source's `heatDissipationTimeStep`: a step whose neighbor and center reads all
observe the pre-step grid (a full snapshot), out-of-bounds neighbors `0`. -/
def snapshotStep (g : Grid) (gamma : ℚ) : Grid :=
  let rows := g.length
  let cols := (g.getD 0 []).length
  (List.range rows).map (fun i => (List.range cols).map (fun j =>
    let a := if 1 ≤ i then getCell g (i-1) j else 0
    let b := if i + 1 < rows then getCell g (i+1) j else 0
    let c := if 1 ≤ j then getCell g i (j-1) else 0
    let d := if j + 1 < cols then getCell g i (j+1) else 0
    let e := getCell g i j
    let temp := gamma * (a + b + c + d + 4*e) - e
    if 0 ≤ temp then temp else 0))

/-- `heatGrid[i][j] += heat`. -/
def addAt (g : Grid) (i j : ℕ) (heat : ℚ) : Grid :=
  setCell g i j (getCell g i j + heat)

/-- Heat injection on mouse click (the interval body of
`setupAddHeatOnMouseClick`, src/pde.ts lines 248–266): if the clicked cell is
in bounds, add `heat` to it and to each in-bounds cardinal neighbor; out of
bounds, do nothing. Coordinates are integers because `canvasXYToGridXY` can
produce `-1`. -/
def addHeatOnMouseClick (heatGrid : Grid) (gridY gridX : ℤ) (heat : ℚ) : Grid :=
  let rows : ℤ := heatGrid.length
  let cols : ℤ := (heatGrid.getD 0 []).length
  if 0 ≤ gridX ∧ gridX < cols ∧ 0 ≤ gridY ∧ gridY < rows then
    let g1 := addAt heatGrid gridY.toNat gridX.toNat heat
    let g2 := if 0 < gridX then addAt g1 gridY.toNat (gridX - 1).toNat heat else g1
    let g3 := if gridX < cols - 1 then addAt g2 gridY.toNat (gridX + 1).toNat heat else g2
    let g4 := if 0 < gridY then addAt g3 (gridY - 1).toNat gridX.toNat heat else g3
    if gridY < rows - 1 then addAt g4 (gridY + 1).toNat gridX.toNat heat else g4
  else heatGrid

/-- Store one pixel's four channels (src/pde.ts lines 95–100 and 111–116):
red `heat`, green `0.2*heat`, blue `15`, alpha `255`; channel values are kept
raw, as the source computes them (byte truncation belongs to the buffer
representation, not to this component). -/
def setPixel (canvasSizeX : ℕ) (d : List ℚ) (y x : ℕ) (heat : ℚ) : List ℚ :=
  let redIndex := y*canvasSizeX*4 + x*4
  (((d.set redIndex heat).set (redIndex+1) (0.2*heat)).set
    (redIndex+2) 15).set (redIndex+3) 255

/-- Number of grid cells covering `w` pixels at `scale` pixels per cell
(src/pde.ts lines 77–82): the full cells, plus one remainder cell when
`scale` does not divide `w`. -/
def totalCells (w scale : ℕ) : ℕ :=
  if w % scale = 0 then w / scale else w / scale + 1

/-- Rasterize the grid into a flat RGBA pixel buffer (`drawHeatGrid`,
src/pde.ts lines 57–124). The buffer is the `ImageData.data` array, four
entries per pixel; the two `throw`s become `Except.error`. The remainder
loops transcribe the source's bounds exactly: they start at a pixel
coordinate (`fullCells*scale`) but stop at a grid coordinate (`gridSize`). -/
def drawHeatGrid (canvasSizeX canvasSizeY : ℕ) (imageData : List ℚ)
    (heatGrid : Grid) (scale : ℕ) : Except String (List ℚ) :=
  let gridSizeX := (heatGrid.getD 0 []).length
  let gridSizeY := heatGrid.length
  if gridSizeX > canvasSizeX ∨ gridSizeY > canvasSizeY then
    .error "Grid is larger than canvas"
  else
    let fullCellsX := canvasSizeX / scale
    let fullCellsY := canvasSizeY / scale
    if totalCells canvasSizeX scale ≠ gridSizeX ∨
        totalCells canvasSizeY scale ≠ gridSizeY then
      .error "Mismatch in canvas and grid sizes"
    else
      -- Full cells
      let d1 := (List.range fullCellsY).foldl (fun d row =>
        (List.range fullCellsX).foldl (fun d col =>
          (List.range' (row*scale) scale).foldl (fun d y =>
            (List.range' (col*scale) scale).foldl (fun d x =>
              setPixel canvasSizeX d y x (getCell heatGrid row col)) d) d) d) imageData
      -- Remainder
      let d2 := (List.range' (fullCellsY*scale) (gridSizeY - fullCellsY*scale)).foldl
        (fun d row =>
          (List.range' (fullCellsX*scale) (gridSizeX - fullCellsX*scale)).foldl
            (fun d col =>
              (List.range' (row*scale) (canvasSizeY - row*scale)).foldl (fun d y =>
                (List.range' (col*scale) (canvasSizeX - col*scale)).foldl (fun d x =>
                  setPixel canvasSizeX d y x (getCell heatGrid row col)) d) d) d) d1
      .ok d2

/-- Real-valued grid, as produced by the initializer (whose radial mode uses
the exponential function). -/
abbrev RGrid := List (List ℝ)

/-- Read cell `(i, j)` of a real grid; out-of-bounds reads default to `0`. -/
def getCellR (g : RGrid) (i j : ℕ) : ℝ := (g.getD i []).getD j 0

/-- The two initialization modes of `initializeHeatGrid`. -/
inductive InitMethod
  | zeros
  | exp

/-- The `rows × cols` grid whose cell `(i, j)` holds `f i j`. -/
def buildGridR (rows cols : ℕ) (f : ℕ → ℕ → ℝ) : RGrid :=
  (List.range rows).map (fun i => (List.range cols).map (f i))

/-- Grid initializer (`initializeHeatGrid`, src/pde.ts lines 2–32): validate
the dimensions, then build either the all-zero grid or the radial
(Gaussian-bump) grid; the `throw` becomes `Except.error`. The source fills a
zero grid and then overwrites every cell in `"exp"` mode; the embedding
builds each grid directly, cell for cell. -/
noncomputable def initializeHeatGrid (rows cols : ℕ) (method : InitMethod)
    (beta : ℝ := 0.0001) (alpha : ℝ := 255) : Except String RGrid :=
  if rows ≤ 0 ∨ rows > 1080 ∨ cols ≤ 0 ∨ cols > 1920 then
    .error "Invalid row or column count!"
  else
    match method with
    | .zeros => .ok (List.replicate rows (List.replicate cols 0))
    | .exp =>
      let midX := cols / 2
      let midY := rows / 2
      .ok (buildGridR rows cols (fun i j =>
        let sqDist := ((i:ℝ) - (midY:ℝ))^2 + ((j:ℝ) - (midX:ℝ))^2
        alpha * Real.exp (-beta * sqDist)))

/-- Coordinate mapper (`canvasXYToGridXY`, src/pde.ts lines 141–145): pixel
point to (column, row) grid indices, unclamped. -/
def canvasXYToGridXY (canvasX canvasY scale : ℚ) : ℤ × ℤ :=
  (⌊(canvasX - 1) / scale⌋, ⌊(canvasY - 1) / scale⌋)

/-! ## Theorems -/

theorem getD_set {α : Type} (l : List α) (i i' : ℕ) (a d : α) :
    (l.set i a).getD i' d = if i = i' ∧ i < l.length then a else l.getD i' d := by
  by_cases h1 : i = i'
  · subst h1
    by_cases h2 : i < l.length
    · rw [if_pos ⟨rfl, h2⟩, List.getD_eq_getElem _ _ (by simpa using h2),
        List.getElem_set_self]
    · rw [if_neg (fun h => h2 h.2), List.set_eq_of_length_le (by omega)]
  · rw [if_neg (fun h => h1 h.1)]
    simp only [List.getD_eq_getElem?_getD, List.getElem?_set, if_neg h1]

theorem length_setCell (g : Grid) (i j : ℕ) (v : ℚ) :
    (setCell g i j v).length = g.length := by
  simp [setCell]

theorem rect_setCell {g : Grid} {rows cols : ℕ} (h : Rect g rows cols)
    (i j : ℕ) (v : ℚ) : Rect (setCell g i j v) rows cols := by
  obtain ⟨hlen, hrows⟩ := h
  refine ⟨by simp [setCell, hlen], ?_⟩
  intro r hr
  rcases Nat.lt_or_ge i g.length with hi | hi
  · simp only [setCell] at hr
    rcases List.mem_or_eq_of_mem_set hr with h' | h'
    · exact hrows r h'
    · subst h'
      rw [List.length_set, List.getD_eq_getElem _ _ hi]
      exact hrows _ (List.getElem_mem hi)
  · rw [setCell, List.set_eq_of_length_le hi] at hr
    exact hrows r hr

theorem getCell_out_row {g : Grid} {i : ℕ} (h : g.length ≤ i) (j : ℕ) :
    getCell g i j = 0 := by
  unfold getCell
  rw [List.getD_eq_default _ _ h]
  simp

theorem getCell_setCell_self {g : Grid} {i j : ℕ} (hi : i < g.length)
    (hj : j < (g.getD i []).length) (v : ℚ) :
    getCell (setCell g i j v) i j = v := by
  unfold getCell setCell
  rw [getD_set, if_pos ⟨rfl, hi⟩, getD_set, if_pos ⟨rfl, hj⟩]

theorem getCell_setCell_ne {g : Grid} {i j : ℕ} (i' j' : ℕ)
    (hne : ¬(i' = i ∧ j' = j)) (v : ℚ) :
    getCell (setCell g i j v) i' j' = getCell g i' j' := by
  unfold getCell setCell
  rw [getD_set]
  split_ifs with h1
  · obtain ⟨rfl, _⟩ := h1
    have hj' : j' ≠ j := fun h => hne ⟨rfl, h⟩
    rw [getD_set, if_neg (fun h => hj' h.1.symm)]
  · rfl

theorem heatStep_eq_stepPrefix (g : Grid) (gamma : ℚ) :
    heatDissipationTimeStep g gamma =
      stepPrefix gamma g.length (g.getD 0 []).length g g.length := rfl

theorem stepRowPrefix_zero (gamma : ℚ) (rows cols : ℕ) (g : Grid) (i : ℕ) :
    stepRowPrefix gamma rows cols g i 0 = g := rfl

theorem stepRowPrefix_succ (gamma : ℚ) (rows cols : ℕ) (g : Grid) (i n : ℕ) :
    stepRowPrefix gamma rows cols g i (n+1) =
      updateCell gamma rows cols (stepRowPrefix gamma rows cols g i n) i n := by
  simp [stepRowPrefix, List.range_succ]

theorem stepPrefix_zero (gamma : ℚ) (rows cols : ℕ) (g : Grid) :
    stepPrefix gamma rows cols g 0 = g := rfl

theorem stepPrefix_succ (gamma : ℚ) (rows cols : ℕ) (g : Grid) (m : ℕ) :
    stepPrefix gamma rows cols g (m+1) =
      stepRowPrefix gamma rows cols (stepPrefix gamma rows cols g m) m cols := by
  simp [stepPrefix, List.range_succ]

theorem rect_row_len {G : Grid} {rows cols : ℕ} (h : Rect G rows cols) {i : ℕ}
    (hi : i < rows) : (G.getD i []).length = cols := by
  obtain ⟨hl, hr⟩ := h
  rw [List.getD_eq_getElem _ _ (by omega)]
  exact hr _ (List.getElem_mem _)

theorem stepInv_update {gamma : ℚ} {g : Grid} {rows cols : ℕ} {G : Grid}
    {i j : ℕ} (hi : i < rows) (hj : j < cols)
    (h : StepInv gamma g rows cols G i j) :
    StepInv gamma g rows cols (updateCell gamma rows cols G i j) i (j+1) := by
  obtain ⟨hrect, hdone, hpend⟩ := h
  have hGlen : G.length = rows := hrect.1
  have hrowlen : (G.getD i []).length = cols := rect_row_len hrect hi
  -- the reads of the loop body, identified with their invariant values
  have ha : (if 1 ≤ i then getCell G (i-1) j else 0) =
      (if _ : 1 ≤ i then newVal gamma g rows cols (i-1) j else 0) := by
    split_ifs with h1
    · exact hdone (i-1) j (by omega) hj (Or.inl (by omega))
    · rfl
  have hb : (if i + 1 < rows then getCell G (i+1) j else 0) =
      (if i + 1 < rows then getCell g (i+1) j else 0) := by
    split_ifs with h1
    · exact hpend (i+1) j (Or.inl (by omega))
    · rfl
  have hc : (if 1 ≤ j then getCell G i (j-1) else 0) =
      (if _ : 1 ≤ j then newVal gamma g rows cols i (j-1) else 0) := by
    split_ifs with h1
    · exact hdone i (j-1) hi (by omega) (Or.inr ⟨rfl, by omega⟩)
    · rfl
  have hd : (if j + 1 < cols then getCell G i (j+1) else 0) =
      (if j + 1 < cols then getCell g i (j+1) else 0) := by
    split_ifs with h1
    · exact hpend i (j+1) (Or.inr ⟨rfl, by omega⟩)
    · rfl
  have he : getCell G i j = getCell g i j := hpend i j (Or.inr ⟨rfl, le_refl j⟩)
  have hwrite : getCell (updateCell gamma rows cols G i j) i j =
      newVal gamma g rows cols i j := by
    unfold updateCell
    rw [getCell_setCell_self (by omega) (by omega)]
    rw [newVal, ha, hb, hc, hd, he]
  refine ⟨?_, ?_, ?_⟩
  · exact rect_setCell hrect _ _ _
  · intro i' j' hi' hj' hpos
    by_cases hij : i' = i ∧ j' = j
    · obtain ⟨rfl, rfl⟩ := hij
      exact hwrite
    · rw [updateCell, getCell_setCell_ne _ _ hij]
      exact hdone i' j' hi' hj' (by omega)
  · intro i' j' hpos
    have hij : ¬(i' = i ∧ j' = j) := by omega
    rw [updateCell, getCell_setCell_ne _ _ hij]
    exact hpend i' j' (by omega)

theorem stepInv_row {gamma : ℚ} {g : Grid} {rows cols : ℕ} {G : Grid} {i : ℕ}
    (hi : i < rows) (h : StepInv gamma g rows cols G i 0) :
    ∀ j, j ≤ cols → StepInv gamma g rows cols (stepRowPrefix gamma rows cols G i j) i j := by
  intro j
  induction j with
  | zero => intro _; rw [stepRowPrefix_zero]; exact h
  | succ n ih =>
    intro hn
    rw [stepRowPrefix_succ]
    exact stepInv_update hi (by omega) (ih (by omega))

theorem stepInv_all {gamma : ℚ} {g : Grid} {rows cols : ℕ}
    (hrect : Rect g rows cols) :
    ∀ m, m ≤ rows → StepInv gamma g rows cols (stepPrefix gamma rows cols g m) m 0 := by
  intro m
  induction m with
  | zero =>
    intro _
    rw [stepPrefix_zero]
    exact ⟨hrect, fun i' j' _ _ hpos => by omega, fun i' j' _ => rfl⟩
  | succ n ih =>
    intro hn
    rw [stepPrefix_succ]
    have hrow := stepInv_row (by omega) (ih (by omega)) cols (le_refl cols)
    obtain ⟨hrect', hdone, hpend⟩ := hrow
    refine ⟨hrect', ?_, ?_⟩
    · intro i' j' hi' hj' hpos
      exact hdone i' j' hi' hj' (by omega)
    · intro i' j' hpos
      exact hpend i' j' (by omega)

/-- The final value of each in-bounds cell after one `heatDissipationTimeStep`
is `newVal`. -/
theorem getCell_heatStep {g : Grid} {rows cols : ℕ} (hrect : Rect g rows cols)
    (gamma : ℚ) {i j : ℕ} (hi : i < rows) (hj : j < cols) :
    getCell (heatDissipationTimeStep g gamma) i j = newVal gamma g rows cols i j := by
  have hlen : g.length = rows := hrect.1
  have hcols : (g.getD 0 []).length = cols := rect_row_len hrect (by omega)
  rw [heatStep_eq_stepPrefix, hlen, hcols]
  obtain ⟨_, hdone, _⟩ := stepInv_all hrect rows (le_refl rows)
  exact hdone i j hi hj (Or.inl hi)

/-- One step preserves the grid's shape. -/
theorem rect_heatStep {g : Grid} {rows cols : ℕ} (hrect : Rect g rows cols)
    (gamma : ℚ) : Rect (heatDissipationTimeStep g gamma) rows cols := by
  have hlen : g.length = rows := hrect.1
  rcases Nat.eq_zero_or_pos rows with h0 | h0
  · subst h0
    have hnil : g = [] := List.eq_nil_of_length_eq_zero hlen
    subst hnil
    have hstep : heatDissipationTimeStep [] gamma = [] := rfl
    rw [hstep]
    exact ⟨rfl, fun r hr => absurd hr (List.not_mem_nil r)⟩
  · have hcols : (g.getD 0 []).length = cols := rect_row_len hrect (by omega)
    rw [heatStep_eq_stepPrefix, hlen, hcols]
    exact (stepInv_all hrect rows (le_refl rows)).1

theorem clamp_nonneg (t : ℚ) : 0 ≤ if 0 ≤ t then t else 0 := by
  split_ifs with h
  · exact h
  · exact le_refl 0

theorem newVal_nonneg (gamma : ℚ) (g : Grid) (rows cols i j : ℕ) :
    0 ≤ newVal gamma g rows cols i j := by
  rw [newVal]
  exact clamp_nonneg _

/-- C1 (amended): one diffusion step updates the grid in place in row-major
order, so each cell `(i, j)` ends at
`max(0, gamma*(up + down + left + right + 4*center) - center)` where the up
and left neighbor values are the already-updated (final) values of this same
pass, while the down, right and center values are the grid's pre-step values;
out-of-bounds neighbors are `0`. -/
theorem heatStep_inPlace_stencil (g : Grid) (rows cols : ℕ) (gamma : ℚ) (i j : ℕ)
    (hrect : Rect g rows cols) (hi : i < rows) (hj : j < cols) :
    getCell (heatDissipationTimeStep g gamma) i j =
      (let a := if 1 ≤ i then getCell (heatDissipationTimeStep g gamma) (i-1) j else 0
       let b := if i + 1 < rows then getCell g (i+1) j else 0
       let c := if 1 ≤ j then getCell (heatDissipationTimeStep g gamma) i (j-1) else 0
       let d := if j + 1 < cols then getCell g i (j+1) else 0
       let e := getCell g i j
       let temp := gamma * (a + b + c + d + 4*e) - e
       if 0 ≤ temp then temp else 0) := by
  have ha : (if _ : 1 ≤ i then newVal gamma g rows cols (i-1) j else 0) =
      (if 1 ≤ i then getCell (heatDissipationTimeStep g gamma) (i-1) j else 0) := by
    split_ifs with h1
    · rw [getCell_heatStep hrect gamma (by omega) hj]
    · rfl
  have hc : (if _ : 1 ≤ j then newVal gamma g rows cols i (j-1) else 0) =
      (if 1 ≤ j then getCell (heatDissipationTimeStep g gamma) i (j-1) else 0) := by
    split_ifs with h1
    · rw [getCell_heatStep hrect gamma hi (by omega)]
    · rfl
  rw [getCell_heatStep hrect gamma hi hj, newVal, ha, hc]

/-- C1 (witness): on the 1×2 grid [[1, 1]] with gamma = 1 the in-place
stencil leaves cell (0, 1) at 7: its left read saw the already-updated 4. -/
theorem heatStep_inPlace_stencil_witness :
    getCell (heatDissipationTimeStep [[(1:ℚ), 1]] 1) 0 1 = 7 := by
  rw [heatStep_inPlace_stencil [[(1:ℚ), 1]] 1 2 1 0 1 (by decide) (by decide) (by decide)]
  with_unfolding_all decide

/-- C1 (counterexample): on the 1×2 grid [[1, 1]] with gamma = 1 the source's
step yields [[4, 7]] — cell (0, 1) observed the already-updated value 4 of its
left neighbor — while the claimed pre-step-snapshot stencil yields [[4, 4]]. -/
theorem heatStep_ne_snapshotStep :
    heatDissipationTimeStep [[(1:ℚ), 1]] 1 = [[4, 7]] ∧
    snapshotStep [[(1:ℚ), 1]] 1 = [[4, 4]] ∧
    heatDissipationTimeStep [[(1:ℚ), 1]] 1 ≠ snapshotStep [[(1:ℚ), 1]] 1 := by
  with_unfolding_all decide

/-- C4: after one diffusion step, every in-bounds cell of a rectangular grid
is ≥ 0: the raw stencil value is clamped to zero from below. -/
theorem heatStep_cell_nonneg (g : Grid) (rows cols : ℕ) (gamma : ℚ) (i j : ℕ)
    (hrect : Rect g rows cols) (hi : i < rows) (hj : j < cols) :
    0 ≤ getCell (heatDissipationTimeStep g gamma) i j := by
  rw [getCell_heatStep hrect gamma hi hj]
  exact newVal_nonneg gamma g rows cols i j

/-- C4 (witness): on the grid [[1]] with gamma = 0 the raw stencil value is
0*(4*1) - 1 = -1 < 0, and the stepped cell is still ≥ 0 (clamped to 0). -/
theorem heatStep_cell_nonneg_witness :
    0 ≤ getCell (heatDissipationTimeStep [[(1:ℚ)]] 0) 0 0 :=
  heatStep_cell_nonneg [[(1:ℚ)]] 1 1 0 0 0 (by decide) (by decide) (by decide)

theorem foldl_fixed {α β : Type _} (f : β → α → β) (b : β) (hf : ∀ a, f b a = b) :
    ∀ l : List α, l.foldl f b = b := by
  intro l
  induction l with
  | nil => rfl
  | cons x xs ih => rw [List.foldl_cons, hf]; exact ih

theorem getD_replicate {α : Type} (n : ℕ) (a d : α) (i : ℕ) :
    (List.replicate n a).getD i d = if i < n then a else d := by
  rcases Nat.lt_or_ge i n with h | h
  · rw [if_pos h, List.getD_eq_getElem _ _ (by simpa using h), List.getElem_replicate]
  · rw [if_neg (by omega), List.getD_eq_default _ _ (by simpa using h)]

theorem getCell_zeroGrid (rows cols i j : ℕ) : getCell (zeroGrid rows cols) i j = 0 := by
  unfold getCell zeroGrid
  rw [getD_replicate]
  split_ifs with h
  · rw [getD_replicate]
    split_ifs <;> rfl
  · rfl

theorem setCell_zeroGrid (rows cols i j : ℕ) :
    setCell (zeroGrid rows cols) i j 0 = zeroGrid rows cols := by
  unfold setCell zeroGrid
  rw [getD_replicate]
  split_ifs with h
  · rw [List.set_replicate_self, List.set_replicate_self]
  · rw [show ([] : List ℚ).set j 0 = [] from rfl,
      List.set_eq_of_length_le (by simpa using h)]

theorem updateCell_zeroGrid (gamma : ℚ) (R C rows cols i j : ℕ) :
    updateCell gamma R C (zeroGrid rows cols) i j = zeroGrid rows cols := by
  unfold updateCell
  simp [getCell_zeroGrid, setCell_zeroGrid]

theorem rect_addAt {g : Grid} {rows cols : ℕ} (h : Rect g rows cols)
    (i j : ℕ) (v : ℚ) : Rect (addAt g i j v) rows cols :=
  rect_setCell h i j _

theorem getCell_addAt {g : Grid} {rows cols : ℕ} (hrect : Rect g rows cols)
    {i j : ℕ} (hi : i < rows) (hj : j < cols) (v : ℚ) (i' j' : ℕ) :
    getCell (addAt g i j v) i' j' =
      getCell g i' j' + (if i' = i ∧ j' = j then v else 0) := by
  by_cases h : i' = i ∧ j' = j
  · obtain ⟨rfl, rfl⟩ := h
    rw [addAt, getCell_setCell_self (by rw [hrect.1]; exact hi)
      (by rw [rect_row_len hrect hi]; exact hj), if_pos ⟨rfl, rfl⟩]
  · rw [addAt, getCell_setCell_ne _ _ h, if_neg h, add_zero]

theorem rect_addAt_ite {G : Grid} {rows cols : ℕ} (h : Rect G rows cols)
    (cond : Prop) [Decidable cond] (a b : ℕ) (v : ℚ) :
    Rect (if cond then addAt G a b v else G) rows cols := by
  split_ifs with hc
  · exact rect_addAt h a b v
  · exact h

theorem getCell_addAt_ite {G : Grid} {rows cols : ℕ} (hrect : Rect G rows cols)
    {cond : Prop} [Decidable cond] {a b : ℕ}
    (hin : cond → a < rows ∧ b < cols) (v : ℚ) (i' j' : ℕ) :
    getCell (if cond then addAt G a b v else G) i' j' =
      getCell G i' j' + (if cond ∧ i' = a ∧ j' = b then v else 0) := by
  by_cases hc : cond
  · rw [if_pos hc, getCell_addAt hrect (hin hc).1 (hin hc).2 v i' j']
    by_cases h2 : i' = a ∧ j' = b
    · rw [if_pos h2, if_pos ⟨hc, h2.1, h2.2⟩]
    · rw [if_neg h2, if_neg (fun h => h2 ⟨h.2.1, h.2.2⟩)]
  · rw [if_neg hc, if_neg (fun h => hc h.1), add_zero]

/-- When the clicked cell is in bounds, the injection adds `heat` to the
clicked cell and, guard by guard, to each in-bounds cardinal neighbor. -/
theorem getCell_addHeatOnMouseClick {g : Grid} {rows cols : ℕ}
    (hrect : Rect g rows cols) {gridY gridX : ℤ}
    (hx0 : 0 ≤ gridX) (hx1 : gridX < (cols:ℤ)) (hy0 : 0 ≤ gridY)
    (hy1 : gridY < (rows:ℤ)) (heat : ℚ) (i' j' : ℕ) :
    getCell (addHeatOnMouseClick g gridY gridX heat) i' j' =
      getCell g i' j' +
        (if i' = gridY.toNat ∧ j' = gridX.toNat then heat else 0) +
        (if 0 < gridX ∧ i' = gridY.toNat ∧ j' = (gridX - 1).toNat then heat else 0) +
        (if gridX < (cols:ℤ) - 1 ∧ i' = gridY.toNat ∧ j' = (gridX + 1).toNat then heat else 0) +
        (if 0 < gridY ∧ i' = (gridY - 1).toNat ∧ j' = gridX.toNat then heat else 0) +
        (if gridY < (rows:ℤ) - 1 ∧ i' = (gridY + 1).toNat ∧ j' = gridX.toNat then heat else 0) := by
  have hlen : g.length = rows := hrect.1
  have hrpos : 0 < rows := by omega
  have hcols : (g.getD 0 []).length = cols := rect_row_len hrect hrpos
  unfold addHeatOnMouseClick
  simp only [hlen, hcols]
  rw [if_pos ⟨hx0, hx1, hy0, hy1⟩]
  set g1 := addAt g gridY.toNat gridX.toNat heat with hg1
  set g2 := if 0 < gridX then addAt g1 gridY.toNat (gridX - 1).toNat heat else g1 with hg2
  set g3 := if gridX < (cols:ℤ) - 1 then addAt g2 gridY.toNat (gridX + 1).toNat heat else g2 with hg3
  set g4 := if 0 < gridY then addAt g3 (gridY - 1).toNat gridX.toNat heat else g3 with hg4
  have hR1 : Rect g1 rows cols := by rw [hg1]; exact rect_addAt hrect _ _ _
  have hR2 : Rect g2 rows cols := by rw [hg2]; exact rect_addAt_ite hR1 _ _ _ _
  have hR3 : Rect g3 rows cols := by rw [hg3]; exact rect_addAt_ite hR2 _ _ _ _
  have hR4 : Rect g4 rows cols := by rw [hg4]; exact rect_addAt_ite hR3 _ _ _ _
  have hin5 : gridY < (rows:ℤ) - 1 → (gridY + 1).toNat < rows ∧ gridX.toNat < cols :=
    fun hc => ⟨by omega, by omega⟩
  have hin4 : 0 < gridY → (gridY - 1).toNat < rows ∧ gridX.toNat < cols :=
    fun hc => ⟨by omega, by omega⟩
  have hin3 : gridX < (cols:ℤ) - 1 → gridY.toNat < rows ∧ (gridX + 1).toNat < cols :=
    fun hc => ⟨by omega, by omega⟩
  have hin2 : 0 < gridX → gridY.toNat < rows ∧ (gridX - 1).toNat < cols :=
    fun hc => ⟨by omega, by omega⟩
  rw [getCell_addAt_ite hR4 hin5, hg4, getCell_addAt_ite hR3 hin4, hg3,
    getCell_addAt_ite hR2 hin3, hg2, getCell_addAt_ite hR1 hin2, hg1,
    getCell_addAt hrect (by omega) (by omega) heat i' j']

/-- When the clicked cell is out of bounds, the injection leaves the grid
unchanged. -/
theorem addHeatOnMouseClick_out {g : Grid} {rows cols : ℕ}
    (hrect : Rect g rows cols) {gridY gridX : ℤ}
    (hout : ¬(0 ≤ gridX ∧ gridX < (cols:ℤ) ∧ 0 ≤ gridY ∧ gridY < (rows:ℤ)))
    (heat : ℚ) : addHeatOnMouseClick g gridY gridX heat = g := by
  have hlen : g.length = rows := hrect.1
  unfold addHeatOnMouseClick
  rcases Nat.eq_zero_or_pos rows with h0 | h0
  · rw [if_neg]
    simp only [hlen]
    omega
  · have hcols : (g.getD 0 []).length = cols := rect_row_len hrect h0
    simp only [hlen, hcols]
    rw [if_neg hout]

/-- C5: heat injection at an interior cell adds `heat` to exactly the five
cells of the plus-shaped stencil (the cell and its four cardinal neighbors)
and leaves every other cell unchanged; at the corner cell (0, 0) it adds
`heat` to exactly the three in-bounds cells (0,0), (0,1), (1,0); and at an
out-of-bounds position the grid is returned entirely unchanged (a silent
no-op). -/
theorem addHeat_effect (g : Grid) (rows cols : ℕ) (gridY gridX : ℤ) (heat : ℚ)
    (i' j' : ℕ) (hrect : Rect g rows cols) :
    (¬(0 ≤ gridX ∧ gridX < (cols:ℤ) ∧ 0 ≤ gridY ∧ gridY < (rows:ℤ)) →
      addHeatOnMouseClick g gridY gridX heat = g) ∧
    (1 ≤ gridY → gridY ≤ (rows:ℤ) - 2 → 1 ≤ gridX → gridX ≤ (cols:ℤ) - 2 →
      getCell (addHeatOnMouseClick g gridY gridX heat) i' j' =
        getCell g i' j' +
          (if (i' = gridY.toNat ∧
                (j' = gridX.toNat ∨ j' = gridX.toNat - 1 ∨ j' = gridX.toNat + 1)) ∨
              ((i' = gridY.toNat - 1 ∨ i' = gridY.toNat + 1) ∧ j' = gridX.toNat)
            then heat else 0)) ∧
    (2 ≤ rows → 2 ≤ cols →
      getCell (addHeatOnMouseClick g 0 0 heat) i' j' =
        getCell g i' j' +
          (if (i' = 0 ∧ j' = 0) ∨ (i' = 0 ∧ j' = 1) ∨ (i' = 1 ∧ j' = 0)
            then heat else 0)) := by
  refine ⟨fun hout => addHeatOnMouseClick_out hrect hout heat,
    fun hy1 hy2 hx1 hx2 => ?_, fun hr2 hc2 => ?_⟩
  · rw [getCell_addHeatOnMouseClick hrect (by omega) (by omega) (by omega)
      (by omega) heat i' j']
    split_ifs <;> first | (exfalso; omega) | ring
  · rw [getCell_addHeatOnMouseClick hrect (by omega) (by omega) (by omega)
      (by omega) heat i' j']
    split_ifs <;> first | (exfalso; omega) | ring

/-- C5 (witness): injecting 2 at the interior cell (1, 1) of a zero 3×3 grid
raises the right neighbor (1, 2) to 2. -/
theorem addHeat_effect_witness :
    getCell (addHeatOnMouseClick [[0,0,0],[0,0,0],[0,0,0]] 1 1 2) 1 2 = 2 := by
  have h := (addHeat_effect [[0,0,0],[0,0,0],[0,0,0]] 3 3 1 1 2 1 2 (by decide)).2.1
    (by norm_num) (by norm_num) (by norm_num) (by norm_num)
  rw [h]
  norm_num [getCell]

theorem totalCells_le {w scale : ℕ} (hs : 1 ≤ scale) : totalCells w scale ≤ w := by
  unfold totalCells
  split_ifs with h
  · exact Nat.div_le_self w scale
  · have hw : 0 < w := by
      rcases Nat.eq_zero_or_pos w with h0 | h0
      · exact absurd (by simp [h0]) h
      · exact h0
    have hs2 : 1 < scale := by
      rcases Nat.eq_or_lt_of_le hs with h1 | h1
      · exact absurd (by rw [← h1]; exact Nat.mod_one w) h
      · exact h1
    have hlt := Nat.div_lt_self hw hs2
    omega

/-- C3: for a positive scale, `drawHeatGrid` fails exactly when the cell
counts derived from the target size and scale (`floor(W/scale)`, plus one if
the remainder is nonzero) disagree with the grid's dimensions; a 3×3 grid
with a 10×10 target succeeds at scale 4 (totalCells = 3) and fails at
scale 5 (totalCells = 2). (When the grid is larger than the canvas the
source throws its size error first, but with a positive scale that situation
also has mismatching cell counts, so the equivalence stands.) -/
theorem drawHeatGrid_mismatch_iff (canvasSizeX canvasSizeY : ℕ)
    (imageData : List ℚ) (heatGrid : Grid) (scale : ℕ) (hscale : 1 ≤ scale) :
    ((∃ e, drawHeatGrid canvasSizeX canvasSizeY imageData heatGrid scale = .error e) ↔
      (totalCells canvasSizeX scale ≠ (heatGrid.getD 0 []).length ∨
       totalCells canvasSizeY scale ≠ heatGrid.length)) ∧
    (∃ d, drawHeatGrid 10 10 (List.replicate 400 0) (zeroGrid 3 3) 4 = .ok d) ∧
    (∃ e, drawHeatGrid 10 10 (List.replicate 400 0) (zeroGrid 3 3) 5 = .error e) := by
  refine ⟨?_, ⟨_, by with_unfolding_all rfl⟩, ⟨_, by with_unfolding_all rfl⟩⟩
  simp only [drawHeatGrid]
  by_cases hbig : (heatGrid.getD 0 []).length > canvasSizeX ∨
      heatGrid.length > canvasSizeY
  · rw [if_pos hbig]
    constructor
    · intro _
      rcases hbig with h | h
      · exact Or.inl (by have := totalCells_le (w := canvasSizeX) hscale; omega)
      · exact Or.inr (by have := totalCells_le (w := canvasSizeY) hscale; omega)
    · intro _
      exact ⟨_, rfl⟩
  · rw [if_neg hbig]
    by_cases hmis : totalCells canvasSizeX scale ≠ (heatGrid.getD 0 []).length ∨
        totalCells canvasSizeY scale ≠ heatGrid.length
    · rw [if_pos hmis]
      exact ⟨fun _ => hmis, fun _ => ⟨_, rfl⟩⟩
    · rw [if_neg hmis]
      constructor
      · rintro ⟨e, he⟩
        exact Except.noConfusion he
      · intro h
        exact absurd h hmis

/-- C3 (witness): the 3×3 grid with the 10×10 target at scale 4 does not
fail: totalCells is 3 in both axes. -/
theorem drawHeatGrid_mismatch_iff_witness :
    ¬∃ e, drawHeatGrid 10 10 (List.replicate 400 0) (zeroGrid 3 3) 4 = .error e := by
  rw [(drawHeatGrid_mismatch_iff 10 10 (List.replicate 400 0) (zeroGrid 3 3) 4
    (by decide)).1]
  decide

/-- C2 (the code at a failing input): rendering the uniform 2×2 grid of 7s
onto a 3×3 canvas at scale 2 succeeds, and the full-cell region is colored
(pixel (0,0): red 7, green 0.2*7), but pixel (x = 2, y = 0) in the right
remainder strip keeps red 0 and alpha 0 — the remainder loops of
`drawHeatGrid` start at `fullCells*scale` (a pixel coordinate) while their
bound is `gridSize` (a cell count), so the remainder strip is never filled
and the claimed uniform fill fails there. -/
theorem drawHeatGrid_remainder_unfilled :
    ∃ d, drawHeatGrid 3 3 (List.replicate 36 0) [[(7:ℚ), 7], [7, 7]] 2 = .ok d ∧
      d.getD 0 0 = 7 ∧ d.getD 1 0 = 0.2 * 7 ∧ d.getD 8 0 = 0 ∧ d.getD 11 0 = 0 := by
  refine ⟨_, by with_unfolding_all rfl, ?_, ?_, ?_, ?_⟩ <;> with_unfolding_all decide

/-- C8: the all-zero grid is a fixed point of the diffusion step, for every
gamma: one step leaves every cell equal to 0. -/
theorem heatStep_zeroGrid (rows cols : ℕ) (gamma : ℚ) :
    heatDissipationTimeStep (zeroGrid rows cols) gamma = zeroGrid rows cols := by
  rw [heatStep_eq_stepPrefix]
  unfold stepPrefix
  apply foldl_fixed
  intro i
  unfold stepRowPrefix
  apply foldl_fixed
  intro j
  exact updateCell_zeroGrid gamma _ _ rows cols i j

/-- C7: the initializer fails (with the invalid-dimensions error, the only
error it raises) precisely when `rows` is outside `[1, 1080]` or `cols` is
outside `[1, 1920]`; in particular it fails for rows = 0, rows = 1081,
cols = 0 and cols = 1921. -/
theorem initializeHeatGrid_error_iff (rows cols : ℕ) (method : InitMethod)
    (beta alpha : ℝ) :
    (initializeHeatGrid rows cols method beta alpha =
        .error "Invalid row or column count!" ↔
      (rows < 1 ∨ 1080 < rows ∨ cols < 1 ∨ 1920 < cols)) ∧
    (∃ e, initializeHeatGrid 0 5 method beta alpha = .error e) ∧
    (∃ e, initializeHeatGrid 1081 5 method beta alpha = .error e) ∧
    (∃ e, initializeHeatGrid 5 0 method beta alpha = .error e) ∧
    (∃ e, initializeHeatGrid 5 1921 method beta alpha = .error e) := by
  refine ⟨?_, ?_, ?_, ?_, ?_⟩
  · unfold initializeHeatGrid
    by_cases hc : rows ≤ 0 ∨ rows > 1080 ∨ cols ≤ 0 ∨ cols > 1920
    · rw [if_pos hc]
      exact iff_of_true rfl (by omega)
    · rw [if_neg hc]
      cases method
      · exact iff_of_false (fun h => Except.noConfusion h) (by omega)
      · exact iff_of_false (fun h => Except.noConfusion h) (by omega)
  · exact ⟨_, by unfold initializeHeatGrid; rw [if_pos (by omega)]⟩
  · exact ⟨_, by unfold initializeHeatGrid; rw [if_pos (by omega)]⟩
  · exact ⟨_, by unfold initializeHeatGrid; rw [if_pos (by omega)]⟩
  · exact ⟨_, by unfold initializeHeatGrid; rw [if_pos (by omega)]⟩

theorem getCellR_buildGrid (rows cols : ℕ) (f : ℕ → ℕ → ℝ) {i j : ℕ}
    (hi : i < rows) (hj : j < cols) :
    getCellR (buildGridR rows cols f) i j = f i j := by
  unfold getCellR buildGridR
  have h1 : ((List.range rows).map (fun i => (List.range cols).map (f i))).getD i [] =
      (List.range cols).map (f i) := by
    rw [List.getD_eq_getElem _ _ (by simpa using hi)]
    simp
  rw [h1, List.getD_eq_getElem _ _ (by simpa using hj)]
  simp

/-- C6: for valid dimensions and nonnegative spread and amplitude, the radial
initializer sets every cell `(i, j)` to
`alpha * exp(-beta*((i - rows/2)^2 + (j - cols/2)^2))`, the center cell equals
`alpha` exactly, and cell values are non-increasing in squared distance from
the center. -/
theorem initializeHeatGrid_radial (rows cols : ℕ) (beta alpha : ℝ)
    (h1 : 1 ≤ rows) (h2 : rows ≤ 1080) (h3 : 1 ≤ cols) (h4 : cols ≤ 1920)
    (hb : 0 ≤ beta) (ha : 0 ≤ alpha) :
    ∃ g, initializeHeatGrid rows cols InitMethod.exp beta alpha = .ok g ∧
      (∀ (i j : ℕ), i < rows → j < cols →
        getCellR g i j =
          alpha * Real.exp (-beta *
            (((i:ℝ) - (rows / 2 : ℕ))^2 + ((j:ℝ) - (cols / 2 : ℕ))^2))) ∧
      getCellR g (rows / 2) (cols / 2) = alpha ∧
      (∀ (i j i' j' : ℕ), i < rows → j < cols → i' < rows → j' < cols →
        (((i:ℝ) - (rows / 2 : ℕ))^2 + ((j:ℝ) - (cols / 2 : ℕ))^2 ≤
          ((i':ℝ) - (rows / 2 : ℕ))^2 + ((j':ℝ) - (cols / 2 : ℕ))^2) →
        getCellR g i' j' ≤ getCellR g i j) := by
  refine ⟨_, by unfold initializeHeatGrid; rw [if_neg (by omega)], ?_, ?_, ?_⟩
  · intro i j hi hj
    rw [getCellR_buildGrid rows cols _ hi hj]
  · rw [getCellR_buildGrid rows cols _ (Nat.div_lt_self (by omega) (by omega))
      (Nat.div_lt_self (by omega) (by omega))]
    simp
  · intro i j i' j' hi hj hi' hj' hle
    rw [getCellR_buildGrid rows cols _ hi hj, getCellR_buildGrid rows cols _ hi' hj']
    dsimp only
    apply mul_le_mul_of_nonneg_left _ ha
    apply Real.exp_le_exp.mpr
    nlinarith

/-- C6 (witness): the 1×1 radial grid with beta = 0, alpha = 1 instantiates
the radial-initialization property. -/
theorem initializeHeatGrid_radial_witness :
    ∃ g, initializeHeatGrid 1 1 InitMethod.exp 0 1 = .ok g ∧
      (∀ (i j : ℕ), i < 1 → j < 1 →
        getCellR g i j =
          1 * Real.exp (-(0:ℝ) *
            (((i:ℝ) - ((1:ℕ) / 2 : ℕ))^2 + ((j:ℝ) - ((1:ℕ) / 2 : ℕ))^2))) ∧
      getCellR g ((1:ℕ) / 2) ((1:ℕ) / 2) = 1 ∧
      (∀ (i j i' j' : ℕ), i < 1 → j < 1 → i' < 1 → j' < 1 →
        (((i:ℝ) - ((1:ℕ) / 2 : ℕ))^2 + ((j:ℝ) - ((1:ℕ) / 2 : ℕ))^2 ≤
          ((i':ℝ) - ((1:ℕ) / 2 : ℕ))^2 + ((j':ℝ) - ((1:ℕ) / 2 : ℕ))^2) →
        getCellR g i' j' ≤ getCellR g i j) :=
  initializeHeatGrid_radial 1 1 0 1 (by norm_num) (by norm_num) (by norm_num)
    (by norm_num) (by norm_num) (by norm_num)

/-- C10: for valid dimensions and nonnegative spread and amplitude, every
cell of the radial grid lies in `[0, alpha]`, and when `alpha` is strictly
positive every cell — boundary cells included — is strictly positive. -/
theorem initializeHeatGrid_radial_bounds (rows cols : ℕ) (beta alpha : ℝ)
    (h1 : 1 ≤ rows) (h2 : rows ≤ 1080) (h3 : 1 ≤ cols) (h4 : cols ≤ 1920)
    (hb : 0 ≤ beta) (ha : 0 ≤ alpha) :
    ∃ g, initializeHeatGrid rows cols InitMethod.exp beta alpha = .ok g ∧
      (∀ (i j : ℕ), i < rows → j < cols →
        0 ≤ getCellR g i j ∧ getCellR g i j ≤ alpha) ∧
      (0 < alpha → ∀ (i j : ℕ), i < rows → j < cols → 0 < getCellR g i j) := by
  refine ⟨_, by unfold initializeHeatGrid; rw [if_neg (by omega)], ?_, ?_⟩
  · intro i j hi hj
    rw [getCellR_buildGrid rows cols _ hi hj]
    dsimp only
    constructor
    · exact mul_nonneg ha (Real.exp_pos _).le
    · have hs : (0:ℝ) ≤ ((i:ℝ) - ((rows / 2 : ℕ):ℝ))^2 + ((j:ℝ) - ((cols / 2 : ℕ):ℝ))^2 := by
        positivity
    -- the exponent is nonpositive, so the exponential is at most one
      have hx : Real.exp (-beta *
          (((i:ℝ) - ((rows / 2 : ℕ):ℝ))^2 + ((j:ℝ) - ((cols / 2 : ℕ):ℝ))^2)) ≤ 1 := by
        have hle : -beta *
            (((i:ℝ) - ((rows / 2 : ℕ):ℝ))^2 + ((j:ℝ) - ((cols / 2 : ℕ):ℝ))^2) ≤ 0 := by
          nlinarith
        exact (Real.exp_le_exp.mpr hle).trans_eq Real.exp_zero
      calc alpha * Real.exp (-beta *
            (((i:ℝ) - ((rows / 2 : ℕ):ℝ))^2 + ((j:ℝ) - ((cols / 2 : ℕ):ℝ))^2)) ≤
          alpha * 1 := mul_le_mul_of_nonneg_left hx ha
        _ = alpha := mul_one alpha
  · intro hpos i j hi hj
    rw [getCellR_buildGrid rows cols _ hi hj]
    exact mul_pos hpos (Real.exp_pos _)

/-- C10 (witness): the 1×1 radial grid with beta = 0, alpha = 1 instantiates
the bounds property. -/
theorem initializeHeatGrid_radial_bounds_witness :
    ∃ g, initializeHeatGrid 1 1 InitMethod.exp 0 1 = .ok g ∧
      (∀ (i j : ℕ), i < 1 → j < 1 →
        0 ≤ getCellR g i j ∧ getCellR g i j ≤ 1) ∧
      ((0:ℝ) < 1 → ∀ (i j : ℕ), i < 1 → j < 1 → 0 < getCellR g i j) :=
  initializeHeatGrid_radial_bounds 1 1 0 1 (by norm_num) (by norm_num)
    (by norm_num) (by norm_num) (by norm_num) (by norm_num)

/-- C9: for every pixel point and positive integer scale the coordinate
mapper returns exactly `(floor((px-1)/scale), floor((py-1)/scale))` — it
neither clamps nor fails on out-of-range input — and it maps the pixel
point (1, 1) to grid cell (0, 0) for every scale. -/
theorem canvasXYToGridXY_eq (canvasX canvasY : ℚ) (scale : ℕ) (hs : 1 ≤ scale) :
    canvasXYToGridXY canvasX canvasY scale =
      (⌊(canvasX - 1) / (scale:ℚ)⌋, ⌊(canvasY - 1) / (scale:ℚ)⌋) ∧
    canvasXYToGridXY 1 1 scale = (0, 0) := by
  refine ⟨rfl, ?_⟩
  unfold canvasXYToGridXY
  norm_num

/-- C9 (witness): at scale 4, pixel (1, 1) maps to cell (0, 0). -/
theorem canvasXYToGridXY_eq_witness :
    canvasXYToGridXY 1 1 ((4:ℕ):ℚ) = (0, 0) :=
  (canvasXYToGridXY_eq 1 1 4 (by decide)).2

end Heat
